import Mathlib

/-!
Verification development for the incremental REPL session engine of
src/internal/repl/repl.go (package replpkg).

The Go code is shallowly embedded: the session state (`Session`), the
statement/expression classifier (`separateEvalStmt`, `evalExpr`, `evalStmt`),
the post-run cleanup (`cleanEvalStmt`) and the evaluation pipeline (`Eval`)
are translated function by function.  The Go parser (`go/parser`), the
`goimports` tool and the `go run` subprocess are external to the repository;
they enter the model as an explicit environment (`GoEnv`) respectively a
`runner` function, so every theorem quantifies over their behaviour.
Strings are treated at Go's byte level restricted to ASCII content (every
line the claims exercise is ASCII, so byte indices and character indices
coincide).
-/

namespace Gophernotes

/-- Model of strings.Split(s, sep) for sep = newline: splits on every newline,
keeping empty fields; the empty string yields one empty field, as in Go. -/
def splitLinesAux : List Char → List Char → List String
  | [], acc => [String.mk acc.reverse]
  | c :: rest, acc =>
    if c = '\n' then String.mk acc.reverse :: splitLinesAux rest []
    else splitLinesAux rest (c :: acc)

/-- Model of strings.Split(in, "\n") from Eval and separateEvalStmt. -/
def goSplitLines (s : String) : List String := splitLinesAux s.data []

/-- Model of strings.Join(lines, "\n"). -/
def goJoinLines : List String → String
  | [] => ""
  | [l] => l
  | l :: rest => l ++ "\n" ++ goJoinLines rest

/-- Model of strings.HasPrefix at the byte (here: character) level. -/
def goHasPrefix (s pre : String) : Bool := pre.data.isPrefixOf s.data

/-- Model of strings.HasSuffix at the byte (here: character) level. -/
def goHasSuffix (s suf : String) : Bool := suf.data.isSuffixOf s.data

/-- ASCII fragment of unicode.IsSpace, as used by strings.TrimSpace. -/
def isSpaceChar (c : Char) : Bool := c = ' ' || c = '\t' || c = '\n' || c = '\r'

/-- Model of strings.TrimSpace. -/
def goTrimSpace (s : String) : String :=
  String.mk (((s.data.dropWhile isSpaceChar).reverse.dropWhile isSpaceChar).reverse)

/-- Index (from the front) of the last occurrence of c in the reversed list:
helper for the strings.LastIndex model. -/
def revIndexOf (c : Char) : List Char → Option Nat
  | [] => none
  | x :: xs => if x = c then some 0 else (revIndexOf c xs).map (· + 1)

/-- Model of strings.LastIndex(s, c) for a one-byte pattern c: the byte index
of the last occurrence, or -1 when absent. -/
def goLastIndex (s : String) (c : Char) : Int :=
  match revIndexOf c s.data.reverse with
  | some k => (s.data.length : Int) - 1 - (k : Int)
  | none => -1

/-- The test `strings.LastIndex(line, c) == len(line)-1` appearing in
separateEvalStmt (repl.go lines 442, 451, 456).  Note that for the empty
string both sides are -1, so the test also succeeds there. -/
def goLastIndexAtEnd (s : String) (c : Char) : Bool :=
  goLastIndex s c == (s.data.length : Int) - 1

/-- The decrement condition of the brace counter (repl.go lines 451-455):
the last byte is a closing brace and the line does not end in the
two-character suffix recognised by strings.HasSuffix(line, the empty block). -/
def closesBlock (line : String) : Bool :=
  goLastIndexAtEnd line '\x7d' && !(goHasSuffix line "\x7b\x7d")

/-- The increment condition of the brace counter (repl.go lines 442-444 and
456-458): the last byte is an opening brace. -/
def opensBlock (line : String) : Bool := goLastIndexAtEnd line '\x7b'

/-- The combined per-line brace-counter update of the statement-accumulation
section of separateEvalStmt (repl.go lines 451-458): the close check runs
before the open check. -/
def braceUpdate (bc : Int) (line : String) : Int :=
  let b1 := if closesBlock line then bc - 1 else bc
  if opensBlock line then b1 + 1 else b1

/-- The name of the persistent value-printing helper (repl.go line 29). -/
def printerName : String := "__gophernotes"

/-- Abstract syntax of the go/ast expressions the repl manipulates:
identifiers, literals (and every other opaque expression), and call
expressions. -/
inductive GoExpr where
  | ident (name : String)
  | basicLit (text : String)
  | call (fn : GoExpr) (args : List GoExpr)

/-- Abstract syntax of the go/ast statements the repl appends to the main
body: expression statements, assignments with left- and right-hand sides,
and every other statement kept opaque. -/
inductive GoStmt where
  | exprStmt (x : GoExpr)
  | assignStmt (lhs rhs : List GoExpr)
  | otherStmt (text : String)

/-- The session state of repl.go (struct Session, lines 32-43): the session
file path, the auxiliary compilation-unit paths (ExtraFilePaths), the
statement list of func main (mainBody.List), and the checkpoint
storedBodyLength.  tmpCounter models the fresh-name generation of
ioutil.TempFile. -/
structure Session where
  filePath : String
  extraFilePaths : List String
  mainBodyList : List GoStmt
  storedBodyLength : Nat
  tmpCounter : Nat

/-- Result of parser.ParseFile on the synthetic wrapper built by evalStmt
(repl.go lines 181-182): either a successful parse yielding the body of F,
or a failure.  On failure Go returns a partial AST; `failed (some stmts)`
records the partial body of F when the scope lookup still finds F, and
`failed none` is the case in which the later dereference of the nil file
panics. -/
inductive ParseFResult where
  | ok (stmts : List GoStmt)
  | failed (partialBody : Option (List GoStmt))

/-- An error from parser.ParseFile inside importFile, tagged with whether it
is a go/scanner.ErrorList (repl.go lines 218-223). -/
structure ScanErr where
  isScannerList : Bool
  msg : String

/-- Classification of the error returned by the go run subprocess
(repl.go lines 393-405): no error, an exec.ExitError carrying a wait status,
or any other error. -/
inductive RunErr where
  | noErr
  | exitStatus (code : Int)
  | other (msg : String)
  deriving DecidableEq

/-- Captured result of one go run invocation: stdout, stderr, and the process
error. -/
structure RunResult where
  out : String
  stderrStr : String
  err : RunErr

/-- Errors produced by the evaluation pipeline.  errContinue and errQuit are
the exported Error constants (repl.go lines 270-273); otherErr covers
errors.New values such as the goimports failure message and the unexpected
stderr error; exitError and runError are the run errors surfaced to the
caller; panicNilDeref marks the path on which the Go code would dereference
the nil result of a failed parse. -/
inductive REPLError where
  | errContinue
  | errQuit
  | otherErr (msg : String)
  | panicNilDeref
  | exitError (code : Int)
  | runError (msg : String)
  deriving DecidableEq

/-- The Error() string of each modelled error value. -/
def replErrMsg : REPLError → String
  | REPLError.errContinue => "<continue input>"
  | REPLError.errQuit => "<quit session>"
  | REPLError.otherErr m => m
  | REPLError.panicNilDeref => "nil pointer dereference"
  | REPLError.exitError c => "exit status " ++ toString c
  | REPLError.runError m => m

/-- The external collaborators of the classifier, passed explicitly: the Go
expression parser (parser.ParseExpr), the wrapper-file parser used by
evalStmt, the goimports tool (source text in, corrected text or an error
message out), the file parser used by importFile, and the purity test of
expressions.  isPureExpr is modelled from the spec: the function itself is
not under src/, the spec describes it as detecting expressions with no side
effects beyond printing (spec section 4.5 step 4). -/
structure GoEnv where
  parseExpr : String → Option GoExpr
  parseF : String → ParseFResult
  goimports : String → Except String String
  parseGoFile : String → Except ScanErr Unit
  isPureExpr : GoExpr → Bool

/-- appendStatements (repl.go lines 262-264): append statements to the main
body. -/
def appendStatements (s : Session) (stmts : List GoStmt) : Session :=
  { s with mainBodyList := s.mainBodyList ++ stmts }

/-- evalExpr (repl.go lines 157-173): parse the input as a bare expression
and, on success, append one expression statement calling the printer helper
with the parsed expression as its only argument. -/
def evalExpr (env : GoEnv) (s : Session) (input : String) : Session × Option GoExpr :=
  match env.parseExpr input with
  | none => (s, none)
  | some e =>
    (appendStatements s [GoStmt.exprStmt (GoExpr.call (GoExpr.ident printerName) [e])], some e)

/-- isNamedIdent (repl.go lines 175-178). -/
def isNamedIdent (expr : GoExpr) (name : String) : Bool :=
  match expr with
  | GoExpr.ident n => n == name
  | _ => false

/-- The statement-list post-processing of evalStmt (repl.go lines 230-257)
followed by appendStatements: when printing is not suppressed and the last
statement is an assignment, a printer call listing the non-blank left-hand
sides is appended after the statements, provided at least one non-blank name
remains. -/
def appendWithPrint (s : Session) (stmts : List GoStmt) (noPrint : Bool) : Session :=
  match noPrint, stmts.getLast? with
  | false, some (GoStmt.assignStmt lhs _) =>
    let vs := lhs.filter (fun v => !(isNamedIdent v "_"))
    if 0 < vs.length then
      appendStatements s (stmts ++ [GoStmt.exprStmt (GoExpr.call (GoExpr.ident printerName) vs)])
    else appendStatements s stmts
  | _, _ => appendStatements s stmts

/-- The wrapper source built by evalStmt (repl.go line 181). -/
def wrapperSrc (input : String) : String :=
  "package P; func F() \x7b " ++ input ++ " \x7d"

/-- The prefix written before the fragment into func_proxy.go
(repl.go lines 187-190). -/
def appendForImport : String := "package main\n\n\n\t\t\t"

/-- importFile (repl.go lines 566-612) restricted to the session state it
mutates: a fresh auxiliary file name is generated, the content is parsed,
and on success the file is registered in ExtraFilePaths.  The package
renaming, main-removal and quickfix steps only alter the written file, not
the session fields tracked here. -/
def importFile (env : GoEnv) (s : Session) (content : String) : Session × Option ScanErr :=
  let ext := "gore_extarnal_" ++ toString s.tmpCounter ++ ".go"
  let s1 := { s with tmpCounter := s.tmpCounter + 1 }
  match env.parseGoFile content with
  | Except.error e => (s1, some e)
  | Except.ok _ => ({ s1 with extraFilePaths := s1.extraFilePaths ++ [ext] }, none)

/-- The tail of evalStmt after the fallback block (repl.go lines 227-259):
the Go code proceeds with the f of the failed parse; with a usable partial
body it appends the statements, otherwise the dereference panics. -/
def evalStmtResume (s : Session) (partialBody : Option (List GoStmt)) (noPrint : Bool) :
    Session × Option REPLError :=
  match partialBody with
  | none => (s, some REPLError.panicNilDeref)
  | some stmts => (appendWithPrint s stmts noPrint, none)

/-- evalStmt (repl.go lines 180-260): parse the fragment inside the synthetic
wrapper; on success append the statements (with the assignment echo of
appendWithPrint); on failure fall back to the proxy-file path: run goimports
over the proxy content and return its error on failure, otherwise register
the corrected file via importFile, turning a scanner.ErrorList parse error
into ErrContinue, and in the remaining cases resume with the partial parse. -/
def evalStmt (env : GoEnv) (s : Session) (input : String) (noPrint : Bool) :
    Session × Option REPLError :=
  match env.parseF (wrapperSrc input) with
  | ParseFResult.ok stmts => (appendWithPrint s stmts noPrint, none)
  | ParseFResult.failed partialBody =>
    match env.goimports (appendForImport ++ input) with
    | Except.error msg => (s, some (REPLError.otherErr msg))
    | Except.ok fixed =>
      match importFile env s fixed with
      | (s1, some scanErr) =>
        if scanErr.isScannerList then (s1, some REPLError.errContinue)
        else evalStmtResume s1 partialBody noPrint
      | (s1, none) => evalStmtResume s1 partialBody noPrint

/-- The result of one iteration of the line loop of separateEvalStmt: either
an early error return, or the updated session and loop variables. -/
inductive StepRes where
  | err (s : Session) (e : REPLError)
  | next (s : Session) (stmtLines : List String) (exprCount : Nat) (bracketCount : Int)

/-- The session carried by a StepRes. -/
def StepRes.session : StepRes → Session
  | StepRes.err s _ => s
  | StepRes.next s _ _ _ => s

/-- The statement-accumulation section of one iteration of the line loop of
separateEvalStmt (repl.go lines 451-470): update the brace counter, append
the line to the pending block, and when the counter is back at zero parse
the accumulated block with printing suppressed. -/
def sepStepRest (env : GoEnv) (s : Session) (line : String) (stmtLines : List String)
    (exprCount : Nat) (bc : Int) : StepRes :=
  let bc3 := braceUpdate bc line
  let sl := stmtLines ++ [line]
  if bc3 = 0 ∧ 0 < sl.length then
    match evalStmt env s (goJoinLines sl) true with
    | (s1, some e) => StepRes.err s1 e
    | (s1, none) => StepRes.next s1 [] exprCount bc3
  else
    StepRes.next s sl (exprCount + 1) bc3

/-- One iteration of the line loop of separateEvalStmt (repl.go lines
437-471): when no block is pending try the line as a bare expression first;
on success move on, on failure pre-increment the counter for a line ending
in an opening brace, then fall into the statement-accumulation section. -/
def sepStep (env : GoEnv) (s : Session) (line : String) (stmtLines : List String)
    (exprCount : Nat) (bc : Int) : StepRes :=
  if bc = 0 ∧ stmtLines = [] then
    match evalExpr env s line with
    | (s1, some _) => StepRes.next s1 stmtLines exprCount bc
    | (s1, none) =>
      let bc1 := if opensBlock line then bc + 1 else bc
      sepStepRest env s1 line stmtLines exprCount bc1
  else
    sepStepRest env s line stmtLines exprCount bc

/-- The line loop of separateEvalStmt, threading the session and the three
loop variables, with the early error return of the in-loop evalStmt call. -/
def sepLoop (env : GoEnv) :
    List String → Session → List String → Nat → Int →
      Session × Except REPLError (List String × Nat × Int)
  | [], s, sl, ec, bc => (s, Except.ok (sl, ec, bc))
  | line :: rest, s, sl, ec, bc =>
    match sepStep env s line sl ec bc with
    | StepRes.err s1 e => (s1, Except.error e)
    | StepRes.next s1 sl1 ec1 bc1 => sepLoop env rest s1 sl1 ec1 bc1

/-- separateEvalStmt (repl.go lines 430-484): run the line loop and, when a
pending block remains after the loop, parse it with printing suppressed
exactly when some earlier line counted as an expression candidate. -/
def separateEvalStmt (env : GoEnv) (s : Session) (input : String) :
    Session × Option REPLError :=
  match sepLoop env (goSplitLines input) s [] 0 0 with
  | (s1, Except.error e) => (s1, some e)
  | (s1, Except.ok (sl, ec, _)) =>
    if 0 < sl.length then evalStmt env s1 (goJoinLines sl) (ec != 0)
    else (s1, none)

/-- The line loop of cleanEvalStmt (repl.go lines 492-503): re-run each line
through evalExpr; a successfully parsed pure expression keeps its freshly
appended print node, an impure expression has the node removed again and the
line deferred to the statement pass, and a non-expression line is deferred
directly. -/
def cleanLoop (env : GoEnv) :
    List String → Session → List String → Session × List String
  | [], s, sl => (s, sl)
  | line :: rest, s, sl =>
    let beforeLines := s.mainBodyList.length
    match evalExpr env s line with
    | (s1, some e) =>
      if env.isPureExpr e then cleanLoop env rest s1 sl
      else cleanLoop env rest { s1 with mainBodyList := s1.mainBodyList.take beforeLines }
        (sl ++ [line])
    | (_, none) => cleanLoop env rest s (sl ++ [line])

/-- cleanEvalStmt (repl.go lines 487-512). -/
def cleanEvalStmt (env : GoEnv) (s : Session) (input : String) :
    Session × Option REPLError :=
  match cleanLoop env (goSplitLines input) s [] with
  | (s1, sl) =>
    if sl.length ≠ 0 then evalStmt env s1 (goJoinLines sl) true
    else (s1, none)

/-- storeMainBody (repl.go lines 516-518). -/
def storeMainBody (s : Session) : Session :=
  { s with storedBodyLength := s.mainBodyList.length }

/-- restoreMainBody (repl.go lines 520-522). -/
def restoreMainBody (s : Session) : Session :=
  { s with mainBodyList := s.mainBodyList.take s.storedBodyLength }

/-- Truncation of the body to a recorded length (the slice expressions of
repl.go lines 408 and 497). -/
def truncateTo (s : Session) (n : Nat) : Session :=
  { s with mainBodyList := s.mainBodyList.take n }

/-- The special-command filter of Eval (repl.go lines 326-333): a line is
forwarded to evaluation unless it starts with "import", a colon, a closing
parenthesis, or (after trimming) a double quote. -/
def nonSpecialLine (line : String) : Bool :=
  !(goHasPrefix line "import") && !(goHasPrefix line ":") &&
    !(goHasPrefix (goTrimSpace line) "\x22") && !(goHasPrefix line ")")

/-- The non-special lines of the input joined back together (repl.go lines
324-379).  The special-command dispatch itself lives outside src/ (the
commands table is not part of the sources); modelled from the spec, the
dispatcher is an out-of-scope collaborator, so the model keeps only the
filtering that Eval itself performs. -/
def evalInput (input : String) : String :=
  goJoinLines ((goSplitLines input).filter nonSpecialLine)

/-- runErrIsSome converted to the error Eval returns. -/
def runErrToOpt : RunErr → Option REPLError
  | RunErr.noErr => none
  | RunErr.exitStatus c => some (REPLError.exitError c)
  | RunErr.other m => some (REPLError.runError m)

/-- The outcome-interpretation step of Eval (repl.go lines 394-405): when the
run failed or produced stderr, and the failure is an exec.ExitError whose
wait status is exactly 2, the main body is restored to the checkpoint and
the run error is cleared; every other outcome passes through unchanged. -/
def interpretRunOutcome (s : Session) (r : RunResult) : Session × RunErr :=
  if r.err ≠ RunErr.noErr ∨ r.stderrStr ≠ "" then
    match r.err with
    | RunErr.exitStatus code =>
      if code = 2 then (restoreMainBody s, RunErr.noErr) else (s, r.err)
    | _ => (s, r.err)
  else (s, r.err)

/-- The result of one Eval call: the final session, captured stdout and
stderr, and the returned error. -/
structure EvalResult where
  session : Session
  output : String
  stderrStr : String
  err : Option REPLError

/-- Eval (repl.go lines 317-427): checkpoint the body, filter out special
lines, classify via separateEvalStmt (returning its error immediately),
run the program (the runner abstracts Run/goRun, receiving the serialized
body and the auxiliary file paths), interpret the outcome (status 2 rolls
back to the checkpoint and clears the error), then unconditionally truncate
to the pre-classification length and re-run the fragment through
cleanEvalStmt, and finally replace the error by the unexpected-stderr error
whenever stderr was non-empty.  clearQuickFix/doQuickFix and the on-disk
serialization are outside src/ and touch no session field tracked here. -/
def Eval (env : GoEnv) (runner : List GoStmt → List String → RunResult)
    (s0 : Session) (input : String) : EvalResult :=
  let s := storeMainBody s0
  let joined := evalInput input
  if joined.length = 0 then
    { session := s, output := "", stderrStr := "", err := none }
  else
    let priorListLength := s.mainBodyList.length
    match separateEvalStmt env s joined with
    | (s1, some e) =>
      { session := s1, output := "", stderrStr := replErrMsg e, err := some e }
    | (s1, none) =>
      let r := runner s1.mainBodyList s1.extraFilePaths
      let s2r := interpretRunOutcome s1 r
      let s3 := truncateTo s2r.1 priorListLength
      match cleanEvalStmt env s3 joined with
      | (s4, some e) =>
        { session := s4, output := r.out, stderrStr := r.stderrStr, err := some e }
      | (s4, none) =>
        { session := s4, output := r.out, stderrStr := r.stderrStr,
          err := if r.stderrStr ≠ "" then
              some (REPLError.otherErr "Unexpected stderr from execution")
            else runErrToOpt s2r.2 }

/-- Modelled from the spec: the program representation of section 4.1.  The
renderer (go/printer), the reparser (go/parser.ParseFile in Session.reset)
and normalizeNodePos are not under src/, so the rendering round-trip is
modelled: a body statement carries its source text and, as the
position-sensitive metadata the spec describes, the number of blank lines
printed before it.  Source text is modelled as its list of lines. -/
structure MStmt where
  text : String
  gapBefore : Nat
  deriving DecidableEq

/-- Modelled from the spec: the fixed lines the session template prints
before the main body (package clause and entry-point header). -/
def headerLines : List String := ["package main", "", "func main() \x7b"]

/-- Modelled from the spec: the closing line of the entry point. -/
def footerLine : String := "\x7d"

/-- Modelled from the spec: the position-sensitive rendering of the body,
emitting each statement after the blank lines its metadata records. -/
def renderBody : List MStmt → List String
  | [] => []
  | st :: rest => List.replicate st.gapBefore "" ++ (st.text :: renderBody rest)

/-- Modelled from the spec: rendering of the whole program. -/
def render (body : List MStmt) : List String :=
  headerLines ++ renderBody body ++ [footerLine]

/-- Modelled from the spec: the body parser, reconstructing each statement
together with normalized position metadata (the run of blank lines before
it). -/
def parseBodyAux (k : Nat) : List String → List MStmt
  | [] => []
  | line :: rest =>
    if line = "" then parseBodyAux (k + 1) rest
    else { text := line, gapBefore := k } :: parseBodyAux 0 rest

/-- Modelled from the spec: reparsing rendered source text back into a
program body, normalizing node position metadata; fails when the text does
not have the session-file shape. -/
def reparseNormalize (lines : List String) : Option (List MStmt) :=
  if lines.take headerLines.length = headerLines ∧ lines.getLast? = some footerLine then
    some (parseBodyAux 0 ((lines.drop headerLines.length).dropLast))
  else none

/-- Run (repl.go lines 115-127): the file list handed to goRun is the
auxiliary unit paths followed by the session file path. -/
def runFiles (s : Session) : List String := s.extraFilePaths ++ [s.filePath]

/-- goRun (repl.go lines 144-155): the argument list of the external tool is
"run" followed by the file list. -/
def goRunArgs (files : List String) : List String := "run" :: files

/-- The full argument list of the subprocess launched by Run. -/
def runCommandArgs (s : Session) : List String := goRunArgs (runFiles s)

/-- A fresh session as NewSession produces it: empty body, no auxiliary
files, checkpoint 0. -/
def sInit : Session :=
  { filePath := "gophernotes_session.go", extraFilePaths := [], mainBodyList := [],
    storedBodyLength := 0, tmpCounter := 0 }

/-- An environment in which the single line x parses as the identifier x,
every wrapper parse fails, goimports reports a syntax error, and every
expression counts as pure. -/
def envIdentX : GoEnv :=
  { parseExpr := fun line => if line = "x" then some (GoExpr.ident "x") else none,
    parseF := fun _ => ParseFResult.failed none,
    goimports := fun _ => Except.error "goimports failed",
    parseGoFile := fun _ => Except.ok (),
    isPureExpr := fun _ => true }

/-- A toolchain run that fails to compile: exit status 2 with compiler
diagnostics on stderr. -/
def runnerStatus2Stderr : List GoStmt → List String → RunResult :=
  fun _ _ => { out := "", stderrStr := "go compile error", err := RunErr.exitStatus 2 }

/-- A toolchain run that fails to compile with exit status 2 and empty
stderr. -/
def runnerStatus2Silent : List GoStmt → List String → RunResult :=
  fun _ _ => { out := "", stderrStr := "", err := RunErr.exitStatus 2 }

/-- An environment in which 1+1 parses as an expression, every wrapper parse
fails and goimports reports a syntax error. -/
def envExprThenFail : GoEnv :=
  { parseExpr := fun line => if line = "1+1" then some (GoExpr.basicLit "1+1") else none,
    parseF := fun _ => ParseFResult.failed none,
    goimports := fun _ => Except.error "syntax error",
    parseGoFile := fun _ => Except.ok (),
    isPureExpr := fun _ => true }

/-- An environment in which nothing parses as an expression, every wrapper
parse fails, and goimports reports a syntax error, as it does on an
unterminated block. -/
def envAllFail : GoEnv :=
  { parseExpr := fun _ => none,
    parseF := fun _ => ParseFResult.failed none,
    goimports := fun _ => Except.error "expected declaration, found for",
    parseGoFile := fun _ => Except.ok (),
    isPureExpr := fun _ => true }

/-- An environment in which 1+2 parses as a literal expression. -/
def envLit : GoEnv :=
  { parseExpr := fun line => if line = "1+2" then some (GoExpr.basicLit "1+2") else none,
    parseF := fun _ => ParseFResult.failed none,
    goimports := fun _ => Except.error "goimports failed",
    parseGoFile := fun _ => Except.ok (),
    isPureExpr := fun _ => true }

/-- An environment in which the wrapper parse of x := 5 yields a single
assignment statement binding x. -/
def envAssignX : GoEnv :=
  { parseExpr := fun _ => none,
    parseF := fun src =>
      if src = wrapperSrc "x := 5" then
        ParseFResult.ok [GoStmt.assignStmt [GoExpr.ident "x"] [GoExpr.basicLit "5"]]
      else ParseFResult.failed none,
    goimports := fun _ => Except.error "goimports failed",
    parseGoFile := fun _ => Except.ok (),
    isPureExpr := fun _ => true }

/-- An environment in which the wrapper parse of an assignment to the blank
identifier yields a single assignment statement whose only left-hand side is
the blank identifier. -/
def envAssignBlank : GoEnv :=
  { parseExpr := fun _ => none,
    parseF := fun src =>
      if src = wrapperSrc "_ = 5" then
        ParseFResult.ok [GoStmt.assignStmt [GoExpr.ident "_"] [GoExpr.basicLit "5"]]
      else ParseFResult.failed none,
    goimports := fun _ => Except.error "goimports failed",
    parseGoFile := fun _ => Except.ok (),
    isPureExpr := fun _ => true }

/-- A session owning one auxiliary unit, for the Run argument-order claim. -/
def sWithAux : Session :=
  { sInit with extraFilePaths := ["gore_extarnal_0.go"] }

/-- The session produced by classifying the single expression line x in
envIdentX starting from a fresh session. -/
def sAfterX : Session :=
  { sInit with
    mainBodyList := [GoStmt.exprStmt (GoExpr.call (GoExpr.ident printerName) [GoExpr.ident "x"])] }

/-- The session produced by classifying 1+1 in envExprThenFail starting from
a fresh session, before the second line fails. -/
def sAfterOnePlusOne : Session :=
  { sInit with
    mainBodyList :=
      [GoStmt.exprStmt (GoExpr.call (GoExpr.ident printerName) [GoExpr.basicLit "1+1"])] }

/-- A well-formed committed body for the rendering round-trip claim. -/
def bodyC9 : List MStmt :=
  [{ text := "a := 1", gapBefore := 0 }, { text := "__gophernotes(a)", gapBefore := 1 }]

theorem takeOfPre {α : Type} {a b : List α} (h : a <+: b) : b.take a.length = a := by
  obtain ⟨t, rfl⟩ := h
  exact List.take_left a t

theorem bodyPre_appendStatements (s : Session) (l : List GoStmt) :
    s.mainBodyList <+: (appendStatements s l).mainBodyList := ⟨l, rfl⟩

theorem bodyPre_evalExpr (env : GoEnv) (s : Session) (input : String) :
    s.mainBodyList <+: (evalExpr env s input).1.mainBodyList := by
  unfold evalExpr
  cases env.parseExpr input with
  | none => exact ⟨[], List.append_nil _⟩
  | some e => exact bodyPre_appendStatements ..

theorem bodyPre_appendWithPrint (s : Session) (stmts : List GoStmt) (noPrint : Bool) :
    s.mainBodyList <+: (appendWithPrint s stmts noPrint).mainBodyList := by
  unfold appendWithPrint
  split
  · dsimp only
    split
    · exact bodyPre_appendStatements ..
    · exact bodyPre_appendStatements ..
  · exact bodyPre_appendStatements ..

theorem body_importFile (env : GoEnv) (s : Session) (c : String) :
    (importFile env s c).1.mainBodyList = s.mainBodyList := by
  unfold importFile
  dsimp only
  split <;> rfl

theorem bodyPre_evalStmtResume (s : Session) (pb : Option (List GoStmt)) (noPrint : Bool) :
    s.mainBodyList <+: (evalStmtResume s pb noPrint).1.mainBodyList := by
  unfold evalStmtResume
  cases pb with
  | none => exact ⟨[], List.append_nil _⟩
  | some stmts => exact bodyPre_appendWithPrint ..

theorem bodyPre_evalStmt (env : GoEnv) (s : Session) (input : String) (noPrint : Bool) :
    s.mainBodyList <+: (evalStmt env s input noPrint).1.mainBodyList := by
  unfold evalStmt
  split
  · exact bodyPre_appendWithPrint ..
  · split
    · exact ⟨[], List.append_nil _⟩
    · rename_i fixed heq2
      rcases himp : importFile env s fixed with ⟨s1, oerr⟩
      have hb : s1.mainBodyList = s.mainBodyList := by
        have := body_importFile env s fixed
        rw [himp] at this
        exact this
      cases oerr with
      | some scanErr =>
        dsimp only
        split
        · exact hb ▸ ⟨[], List.append_nil _⟩
        · exact hb ▸ bodyPre_evalStmtResume ..
      | none => exact hb ▸ bodyPre_evalStmtResume ..

theorem bodyPre_sepStepRest (env : GoEnv) (s : Session) (line : String)
    (sl : List String) (ec : Nat) (bc : Int) :
    s.mainBodyList <+: (sepStepRest env s line sl ec bc).session.mainBodyList := by
  unfold sepStepRest
  dsimp only
  split
  · rcases hes : evalStmt env s (goJoinLines (sl ++ [line])) true with ⟨s1, o⟩
    have := bodyPre_evalStmt env s (goJoinLines (sl ++ [line])) true
    rw [hes] at this
    cases o <;> exact this
  · exact ⟨[], List.append_nil _⟩

theorem bodyPre_sepStep (env : GoEnv) (s : Session) (line : String)
    (sl : List String) (ec : Nat) (bc : Int) :
    s.mainBodyList <+: (sepStep env s line sl ec bc).session.mainBodyList := by
  unfold sepStep
  split
  · rcases hee : evalExpr env s line with ⟨s1, o⟩
    have h1 : s.mainBodyList <+: s1.mainBodyList := by
      have := bodyPre_evalExpr env s line
      rw [hee] at this
      exact this
    cases o with
    | some e => exact h1
    | none => exact h1.trans (bodyPre_sepStepRest ..)
  · exact bodyPre_sepStepRest ..

theorem bodyPre_sepLoop (env : GoEnv) (lines : List String) (s : Session)
    (sl : List String) (ec : Nat) (bc : Int) :
    s.mainBodyList <+: (sepLoop env lines s sl ec bc).1.mainBodyList := by
  induction lines generalizing s sl ec bc with
  | nil => exact ⟨[], List.append_nil _⟩
  | cons line rest ih =>
    show s.mainBodyList <+: (sepLoop env (line :: rest) s sl ec bc).1.mainBodyList
    unfold sepLoop
    rcases hst : sepStep env s line sl ec bc with ⟨s1, e⟩ | ⟨s1, sl1, ec1, bc1⟩
    · have := bodyPre_sepStep env s line sl ec bc
      rw [hst] at this
      exact this
    · have h1 : s.mainBodyList <+: s1.mainBodyList := by
        have := bodyPre_sepStep env s line sl ec bc
        rw [hst] at this
        exact this
      exact h1.trans (ih ..)

theorem bodyPre_separate (env : GoEnv) (s : Session) (input : String) :
    s.mainBodyList <+: (separateEvalStmt env s input).1.mainBodyList := by
  unfold separateEvalStmt
  rcases hlp : sepLoop env (goSplitLines input) s [] 0 0 with ⟨s1, r⟩
  have h1 : s.mainBodyList <+: s1.mainBodyList := by
    have := bodyPre_sepLoop env (goSplitLines input) s [] 0 0
    rw [hlp] at this
    exact this
  cases r with
  | error e => exact h1
  | ok v =>
    rcases v with ⟨sl, ec, bc⟩
    dsimp only
    split
    · exact h1.trans (bodyPre_evalStmt ..)
    · exact h1

theorem bodyPre_cleanLoop (env : GoEnv) (lines : List String) (s : Session)
    (sl : List String) :
    s.mainBodyList <+: (cleanLoop env lines s sl).1.mainBodyList := by
  induction lines generalizing s sl with
  | nil => exact ⟨[], List.append_nil _⟩
  | cons line rest ih =>
    show s.mainBodyList <+: (cleanLoop env (line :: rest) s sl).1.mainBodyList
    unfold cleanLoop
    cases hp : env.parseExpr line with
    | none =>
      have : evalExpr env s line = (s, none) := by
        unfold evalExpr
        rw [hp]
      rw [this]
      exact ih ..
    | some e =>
      have hval : evalExpr env s line =
          (appendStatements s [GoStmt.exprStmt (GoExpr.call (GoExpr.ident printerName) [e])],
            some e) := by
        unfold evalExpr
        rw [hp]
      rw [hval]
      dsimp only
      split
      · exact (bodyPre_appendStatements ..).trans (ih ..)
      · have hbody : ∀ s1 : Session, s1.mainBodyList = s.mainBodyList ++
              [GoStmt.exprStmt (GoExpr.call (GoExpr.ident printerName) [e])] →
            ({ s1 with mainBodyList := s1.mainBodyList.take s.mainBodyList.length } :
              Session).mainBodyList = s.mainBodyList := by
          intro s1 h1
          show s1.mainBodyList.take s.mainBodyList.length = s.mainBodyList
          rw [h1]
          exact List.take_left ..
        have h2 := ih { appendStatements s
            [GoStmt.exprStmt (GoExpr.call (GoExpr.ident printerName) [e])] with
          mainBodyList := (appendStatements s
            [GoStmt.exprStmt (GoExpr.call (GoExpr.ident printerName) [e])]).mainBodyList.take
              s.mainBodyList.length } (sl ++ [line])
        rw [hbody _ rfl] at h2
        exact h2

theorem bodyPre_clean (env : GoEnv) (s : Session) (input : String) :
    s.mainBodyList <+: (cleanEvalStmt env s input).1.mainBodyList := by
  unfold cleanEvalStmt
  rcases hcl : cleanLoop env (goSplitLines input) s [] with ⟨s1, sl⟩
  have h1 : s.mainBodyList <+: s1.mainBodyList := by
    have := bodyPre_cleanLoop env (goSplitLines input) s []
    rw [hcl] at this
    exact this
  dsimp only
  split
  · exact h1.trans (bodyPre_evalStmt ..)
  · exact h1

theorem stored_evalExpr (env : GoEnv) (s : Session) (input : String) :
    (evalExpr env s input).1.storedBodyLength = s.storedBodyLength := by
  unfold evalExpr
  cases env.parseExpr input <;> rfl

theorem stored_appendWithPrint (s : Session) (stmts : List GoStmt) (noPrint : Bool) :
    (appendWithPrint s stmts noPrint).storedBodyLength = s.storedBodyLength := by
  unfold appendWithPrint
  split
  · dsimp only
    split <;> rfl
  · rfl

theorem stored_importFile (env : GoEnv) (s : Session) (c : String) :
    (importFile env s c).1.storedBodyLength = s.storedBodyLength := by
  unfold importFile
  dsimp only
  split <;> rfl

theorem stored_evalStmtResume (s : Session) (pb : Option (List GoStmt)) (noPrint : Bool) :
    (evalStmtResume s pb noPrint).1.storedBodyLength = s.storedBodyLength := by
  unfold evalStmtResume
  cases pb with
  | none => rfl
  | some stmts => exact stored_appendWithPrint ..

theorem stored_evalStmt (env : GoEnv) (s : Session) (input : String) (noPrint : Bool) :
    (evalStmt env s input noPrint).1.storedBodyLength = s.storedBodyLength := by
  unfold evalStmt
  split
  · exact stored_appendWithPrint ..
  · split
    · rfl
    · rename_i fixed heq2
      rcases himp : importFile env s fixed with ⟨s1, oerr⟩
      have hb : s1.storedBodyLength = s.storedBodyLength := by
        have := stored_importFile env s fixed
        rw [himp] at this
        exact this
      cases oerr with
      | some scanErr =>
        dsimp only
        split
        · exact hb
        · exact (stored_evalStmtResume ..).trans hb
      | none => exact (stored_evalStmtResume ..).trans hb

theorem stored_sepStepRest (env : GoEnv) (s : Session) (line : String)
    (sl : List String) (ec : Nat) (bc : Int) :
    (sepStepRest env s line sl ec bc).session.storedBodyLength = s.storedBodyLength := by
  unfold sepStepRest
  dsimp only
  split
  · rcases hes : evalStmt env s (goJoinLines (sl ++ [line])) true with ⟨s1, o⟩
    have := stored_evalStmt env s (goJoinLines (sl ++ [line])) true
    rw [hes] at this
    cases o <;> exact this
  · rfl

theorem stored_sepStep (env : GoEnv) (s : Session) (line : String)
    (sl : List String) (ec : Nat) (bc : Int) :
    (sepStep env s line sl ec bc).session.storedBodyLength = s.storedBodyLength := by
  unfold sepStep
  split
  · rcases hee : evalExpr env s line with ⟨s1, o⟩
    have h1 : s1.storedBodyLength = s.storedBodyLength := by
      have := stored_evalExpr env s line
      rw [hee] at this
      exact this
    cases o with
    | some e => exact h1
    | none => exact (stored_sepStepRest ..).trans h1
  · exact stored_sepStepRest ..

theorem stored_sepLoop (env : GoEnv) (lines : List String) (s : Session)
    (sl : List String) (ec : Nat) (bc : Int) :
    (sepLoop env lines s sl ec bc).1.storedBodyLength = s.storedBodyLength := by
  induction lines generalizing s sl ec bc with
  | nil => rfl
  | cons line rest ih =>
    show (sepLoop env (line :: rest) s sl ec bc).1.storedBodyLength = s.storedBodyLength
    unfold sepLoop
    rcases hst : sepStep env s line sl ec bc with ⟨s1, e⟩ | ⟨s1, sl1, ec1, bc1⟩
    · have := stored_sepStep env s line sl ec bc
      rw [hst] at this
      exact this
    · have h1 : s1.storedBodyLength = s.storedBodyLength := by
        have := stored_sepStep env s line sl ec bc
        rw [hst] at this
        exact this
      exact (ih ..).trans h1

theorem stored_separate (env : GoEnv) (s : Session) (input : String) :
    (separateEvalStmt env s input).1.storedBodyLength = s.storedBodyLength := by
  unfold separateEvalStmt
  rcases hlp : sepLoop env (goSplitLines input) s [] 0 0 with ⟨s1, r⟩
  have h1 : s1.storedBodyLength = s.storedBodyLength := by
    have := stored_sepLoop env (goSplitLines input) s [] 0 0
    rw [hlp] at this
    exact this
  cases r with
  | error e => exact h1
  | ok v =>
    rcases v with ⟨sl, ec, bc⟩
    dsimp only
    split
    · exact (stored_evalStmt ..).trans h1
    · exact h1

theorem interpretRunOutcome_fst (s : Session) (r : RunResult) :
    (interpretRunOutcome s r).1 = s ∨ (interpretRunOutcome s r).1 = restoreMainBody s := by
  unfold interpretRunOutcome
  split
  · split
    · split
      · exact Or.inr rfl
      · exact Or.inl rfl
    · exact Or.inl rfl
  · exact Or.inl rfl

theorem interpretRunOutcome_status2 (s : Session) (r : RunResult)
    (h : r.err = RunErr.exitStatus 2) :
    interpretRunOutcome s r = (restoreMainBody s, RunErr.noErr) := by
  unfold interpretRunOutcome
  rw [if_pos (Or.inl (by rw [h]; intro hc; exact RunErr.noConfusion hc))]
  split
  · rename_i code hcode
    rw [h] at hcode
    cases hcode
    rw [if_pos rfl]
  · rename_i hother
    rw [h] at hother
    exact absurd rfl (hother 2)

theorem renderBody_ne_nil (st : MStmt) (rest : List MStmt) :
    renderBody (st :: rest) ≠ [] := by
  unfold renderBody
  intro h
  rcases List.append_eq_nil.mp h with ⟨-, h2⟩
  exact List.noConfusion h2

theorem getLast_renderBody_ne (body : List MStmt) (hwf : ∀ st ∈ body, st.text ≠ "") :
    (renderBody body).getLast? ≠ some "" := by
  induction body with
  | nil =>
    intro h
    exact Option.noConfusion h
  | cons st rest ih =>
    show (renderBody (st :: rest)).getLast? ≠ some ""
    unfold renderBody
    cases hr : rest with
    | nil =>
      simp only [renderBody]
      rw [List.getLast?_concat]
      intro h
      exact hwf st (by simp) (by injection h)
    | cons st2 rs =>
      rw [List.getLast?_append]
      rw [show st.text :: renderBody (st2 :: rs) = [st.text] ++ renderBody (st2 :: rs) from rfl]
      rw [List.getLast?_append]
      have hne := renderBody_ne_nil st2 rs
      have ihr : (renderBody (st2 :: rs)).getLast? ≠ some "" := by
        rw [← hr]
        exact ih (fun x hx => hwf x (List.mem_cons_of_mem _ hx))
      cases hg : (renderBody (st2 :: rs)).getLast? with
      | none =>
        exact absurd (List.getLast?_eq_none_iff.mp hg) hne
      | some y =>
        simp only [Option.or]
        intro h
        apply ihr
        rw [hg]
        exact h

theorem renderBody_parse (L : List String) (k : Nat) (hk : L = [] → k = 0)
    (hL : L.getLast? ≠ some "") :
    renderBody (parseBodyAux k L) = List.replicate k "" ++ L := by
  induction L generalizing k with
  | nil =>
    rw [hk rfl]
    rfl
  | cons line rest ih =>
    unfold parseBodyAux
    by_cases hline : line = ""
    · rw [if_pos hline]
      have hrest : rest ≠ [] := by
        intro h
        apply hL
        rw [h, hline]
        rfl
      have hLrest : rest.getLast? ≠ some "" := by
        intro h
        apply hL
        cases rest with
        | nil => exact absurd rfl hrest
        | cons r rs =>
          rw [List.getLast?_cons_cons]
          exact h
      rw [ih (k + 1) (fun h => absurd h hrest) hLrest]
      rw [List.replicate_succ', List.append_assoc, hline]
      rfl
    · rw [if_neg hline]
      show List.replicate k "" ++ (line :: renderBody (parseBodyAux 0 rest)) =
        List.replicate k "" ++ (line :: rest)
      have hLrest : rest.getLast? ≠ some "" := by
        intro h
        apply hL
        cases rest with
        | nil => exact Option.noConfusion h
        | cons r rs =>
          rw [List.getLast?_cons_cons]
          exact h
      rw [ih 0 (fun _ => rfl) hLrest]
      rfl

theorem goLastIndexAtEnd_iff (s : String) (c : Char) :
    goLastIndexAtEnd s c = true ↔ (s.data.getLast? = some c ∨ s.data = []) := by
  unfold goLastIndexAtEnd goLastIndex
  rw [← List.head?_reverse]
  rw [show (s.data = []) ↔ (s.data.reverse = []) from Iff.symm List.reverse_eq_nil_iff]
  rw [show s.data.length = s.data.reverse.length from (List.length_reverse _).symm]
  generalize s.data.reverse = r
  cases r with
  | nil =>
    simp [revIndexOf]
  | cons x xs =>
    unfold revIndexOf
    by_cases hx : x = c
    · rw [if_pos hx]
      simp [hx]
    · rw [if_neg hx]
      cases hr : revIndexOf c xs with
      | none =>
        simp only [Option.map_none', List.head?_cons]
        constructor
        · intro h
          exfalso
          have h2 := beq_iff_eq.mp h
          simp only [List.length_cons] at h2
          push_cast at h2
          omega
        · intro h
          rcases h with h | h
          · exact absurd (Option.some.inj h) hx
          · exact List.noConfusion h
      | some k =>
        simp only [Option.map_some', List.head?_cons]
        constructor
        · intro h
          exfalso
          have h2 := beq_iff_eq.mp h
          simp only [List.length_cons] at h2
          push_cast at h2
          omega
        · intro h
          rcases h with h | h
          · exact absurd (Option.some.inj h) hx
          · exact List.noConfusion h

theorem eval_status2_reduce (env : GoEnv) (runner : List GoStmt → List String → RunResult)
    (s0 : Session) (input : String) (s1 : Session)
    (hne : (evalInput input).length ≠ 0)
    (hsep : separateEvalStmt env (storeMainBody s0) (evalInput input) = (s1, none))
    (hrun : (runner s1.mainBodyList s1.extraFilePaths).err = RunErr.exitStatus 2) :
    Eval env runner s0 input =
      (match cleanEvalStmt env (truncateTo (restoreMainBody s1) s0.mainBodyList.length)
          (evalInput input) with
       | (s4, some e) =>
         { session := s4, output := (runner s1.mainBodyList s1.extraFilePaths).out,
           stderrStr := (runner s1.mainBodyList s1.extraFilePaths).stderrStr, err := some e }
       | (s4, none) =>
         { session := s4, output := (runner s1.mainBodyList s1.extraFilePaths).out,
           stderrStr := (runner s1.mainBodyList s1.extraFilePaths).stderrStr,
           err := if (runner s1.mainBodyList s1.extraFilePaths).stderrStr ≠ "" then
               some (REPLError.otherErr "Unexpected stderr from execution")
             else none }) := by
  simp only [Eval]
  rw [if_neg hne, hsep]
  dsimp only
  rw [interpretRunOutcome_status2 _ _ hrun]
  have hlen : (storeMainBody s0).mainBodyList.length = s0.mainBodyList.length := rfl
  rw [hlen]
  rcases hcl : cleanEvalStmt env (truncateTo (restoreMainBody s1) s0.mainBodyList.length)
      (evalInput input) with ⟨s4, o⟩
  clear hcl
  cases o <;> rfl

theorem status2_truncate_eq (env : GoEnv) (s0 : Session) (input : String) (s1 : Session)
    (hsep : separateEvalStmt env (storeMainBody s0) (evalInput input) = (s1, none)) :
    (truncateTo (restoreMainBody s1) s0.mainBodyList.length).mainBodyList = s0.mainBodyList := by
  have hstored : s1.storedBodyLength = s0.mainBodyList.length := by
    have := stored_separate env (storeMainBody s0) (evalInput input)
    rw [hsep] at this
    exact this
  have hpre : s0.mainBodyList <+: s1.mainBodyList := by
    have := bodyPre_separate env (storeMainBody s0) (evalInput input)
    rw [hsep] at this
    exact this
  show (s1.mainBodyList.take s1.storedBodyLength).take s0.mainBodyList.length = s0.mainBodyList
  rw [hstored, takeOfPre hpre, List.take_length]

/-- C1: as stated, the claim fails on the code.  In the modelled execution
the run exits with the conventional did-not-compile status 2, the rollback
of restoreMainBody happens, but Eval then re-runs the fragment through
cleanEvalStmt, which re-appends a node for the expression, and because the
compiler wrote diagnostics to stderr the final stderr check replaces the
cleared error by the unexpected-stderr error.  So after Eval returns the
body still holds a node appended since the checkpoint and the returned
error is not nil. -/
theorem c1_counterexample :
    (runnerStatus2Stderr (Eval envIdentX runnerStatus2Stderr sInit "x").session.mainBodyList
        (Eval envIdentX runnerStatus2Stderr sInit "x").session.extraFilePaths).err
      = RunErr.exitStatus 2 ∧
    (Eval envIdentX runnerStatus2Stderr sInit "x").err
      = some (REPLError.otherErr "Unexpected stderr from execution") ∧
    (Eval envIdentX runnerStatus2Stderr sInit "x").err ≠ none ∧
    (Eval envIdentX runnerStatus2Stderr sInit "x").session.mainBodyList.length = 1 ∧
    sInit.mainBodyList.length = 0 := by
  refine ⟨rfl, rfl, ?_, rfl, rfl⟩
  rw [show (Eval envIdentX runnerStatus2Stderr sInit "x").err
    = some (REPLError.otherErr "Unexpected stderr from execution") from rfl]
  exact Option.some_ne_none _

/-- C1 (amended): when the external run exits with status 2, Eval restores
the body to the checkpoint and clears the run error before the cleanup
pass; the final session is whatever cleanEvalStmt rebuilds from the
checkpointed body, and the returned error is the cleanup error if any,
otherwise the unexpected-stderr error exactly when stderr was non-empty,
and nil only when stderr was empty. -/
theorem c1_amended_status2 (env : GoEnv) (runner : List GoStmt → List String → RunResult)
    (s0 : Session) (input : String) (s1 : Session)
    (hne : (evalInput input).length ≠ 0)
    (hsep : separateEvalStmt env (storeMainBody s0) (evalInput input) = (s1, none))
    (hrun : (runner s1.mainBodyList s1.extraFilePaths).err = RunErr.exitStatus 2) :
    (truncateTo (restoreMainBody s1) s0.mainBodyList.length).mainBodyList = s0.mainBodyList ∧
    (Eval env runner s0 input).session =
      (cleanEvalStmt env (truncateTo (restoreMainBody s1) s0.mainBodyList.length)
        (evalInput input)).1 ∧
    (Eval env runner s0 input).err =
      (match (cleanEvalStmt env (truncateTo (restoreMainBody s1) s0.mainBodyList.length)
          (evalInput input)).2 with
       | some e => some e
       | none =>
         if (runner s1.mainBodyList s1.extraFilePaths).stderrStr ≠ "" then
           some (REPLError.otherErr "Unexpected stderr from execution")
         else none) := by
  refine ⟨status2_truncate_eq env s0 input s1 hsep, ?_, ?_⟩ <;>
    rw [eval_status2_reduce env runner s0 input s1 hne hsep hrun] <;>
    rcases hcl : cleanEvalStmt env (truncateTo (restoreMainBody s1) s0.mainBodyList.length)
        (evalInput input) with ⟨s4, o⟩ <;>
    clear hcl <;>
    cases o <;> rfl

/-- C1 witness: the amended theorem applied to a concrete failing
evaluation. -/
theorem c1_amended_witness :
    (evalInput "x").length ≠ 0 ∧
    (truncateTo (restoreMainBody sAfterX) sInit.mainBodyList.length).mainBodyList
      = sInit.mainBodyList := by
  refine ⟨by decide, ?_⟩
  exact (c1_amended_status2 envIdentX runnerStatus2Stderr sInit "x" sAfterX
    (by decide) rfl rfl).1

/-- C2: as stated, the claim fails on the code.  A recoverable compile
failure (exit status 2, here even with empty stderr, so Eval reports no
error) does not leave the body length unchanged: the cleanup pass re-appends
a print node for the fragment, so the length grows from 0 to 1. -/
theorem c2_counterexample :
    (Eval envIdentX runnerStatus2Silent sInit "x").err = none ∧
    (runnerStatus2Silent [] []).err = RunErr.exitStatus 2 ∧
    (Eval envIdentX runnerStatus2Silent sInit "x").session.mainBodyList.length
      ≠ sInit.mainBodyList.length := by
  refine ⟨rfl, rfl, ?_⟩
  rw [show (Eval envIdentX runnerStatus2Silent sInit "x").session.mainBodyList.length = 1 from rfl]
  decide

/-- C2 (amended): after a recoverable compile failure the pre-evaluation
body survives exactly as a prefix of the final body; the nodes the cleanup
pass re-appends follow it, and the length is unchanged exactly when the
cleanup pass appended nothing. -/
theorem c2_amended_recoverable (env : GoEnv) (runner : List GoStmt → List String → RunResult)
    (s0 : Session) (input : String) (s1 : Session)
    (hne : (evalInput input).length ≠ 0)
    (hsep : separateEvalStmt env (storeMainBody s0) (evalInput input) = (s1, none))
    (hrun : (runner s1.mainBodyList s1.extraFilePaths).err = RunErr.exitStatus 2) :
    ∃ delta,
      (Eval env runner s0 input).session.mainBodyList = s0.mainBodyList ++ delta ∧
      ((Eval env runner s0 input).session.mainBodyList.length = s0.mainBodyList.length ↔
        delta = []) := by
  have hses : (Eval env runner s0 input).session =
      (cleanEvalStmt env (truncateTo (restoreMainBody s1) s0.mainBodyList.length)
        (evalInput input)).1 := by
    rw [eval_status2_reduce env runner s0 input s1 hne hsep hrun]
    rcases hcl : cleanEvalStmt env (truncateTo (restoreMainBody s1) s0.mainBodyList.length)
        (evalInput input) with ⟨s4, o⟩
    clear hcl
    cases o <;> rfl
  have hpre : s0.mainBodyList <+:
      (cleanEvalStmt env (truncateTo (restoreMainBody s1) s0.mainBodyList.length)
        (evalInput input)).1.mainBodyList := by
    have h1 := bodyPre_clean env (truncateTo (restoreMainBody s1) s0.mainBodyList.length)
      (evalInput input)
    rw [status2_truncate_eq env s0 input s1 hsep] at h1
    exact h1
  obtain ⟨delta, hdelta⟩ := hpre
  refine ⟨delta, ?_, ?_⟩
  · rw [hses]
    exact hdelta.symm
  · rw [hses, ← hdelta, List.length_append]
    constructor
    · intro h
      have : delta.length = 0 := by omega
      exact List.length_eq_zero.mp this
    · intro h
      rw [h]
      rfl

/-- C2 witness: the amended theorem applied to a concrete recoverable
failure. -/
theorem c2_amended_witness :
    (evalInput "x").length ≠ 0 ∧
    ∃ delta,
      (Eval envIdentX runnerStatus2Silent sInit "x").session.mainBodyList
        = sInit.mainBodyList ++ delta ∧
      ((Eval envIdentX runnerStatus2Silent sInit "x").session.mainBodyList.length
          = sInit.mainBodyList.length ↔ delta = []) :=
  ⟨by decide, c2_amended_recoverable envIdentX runnerStatus2Silent sInit "x" sAfterX
    (by decide) rfl rfl⟩

/-- C3: as stated, the claim fails on the code.  When the first line of a
fragment is classified as an expression (one node appended) and a later
line fails classification, Eval returns the error immediately, but no
rollback happens on this path: the node appended for the first line remains
in the body, which therefore differs from the checkpoint. -/
theorem c3_counterexample :
    (Eval envExprThenFail runnerStatus2Stderr sInit "1+1\nfor \x7b").err
      = some (REPLError.otherErr "syntax error") ∧
    (Eval envExprThenFail runnerStatus2Stderr sInit "1+1\nfor \x7b").session.mainBodyList.length
      = 1 ∧
    sInit.mainBodyList.length = 0 := ⟨rfl, rfl, rfl⟩

/-- C3 (amended): a classification error is returned immediately and the
result is independent of the build/run step (the runner is universally
quantified and unused), but the body is only guaranteed to extend the
checkpoint: nodes appended before the failure remain. -/
theorem c3_amended_classification (env : GoEnv)
    (runner : List GoStmt → List String → RunResult)
    (s0 : Session) (input : String) (s1 : Session) (e : REPLError)
    (hne : (evalInput input).length ≠ 0)
    (hsep : separateEvalStmt env (storeMainBody s0) (evalInput input) = (s1, some e)) :
    Eval env runner s0 input =
      { session := s1, output := "", stderrStr := replErrMsg e, err := some e } ∧
    s0.mainBodyList <+: s1.mainBodyList := by
  constructor
  · simp only [Eval]
    rw [if_neg hne, hsep]
  · have := bodyPre_separate env (storeMainBody s0) (evalInput input)
    rw [hsep] at this
    exact this

/-- C3 witness: the amended theorem applied to the concrete two-line
fragment. -/
theorem c3_amended_witness :
    (evalInput "1+1\nfor \x7b").length ≠ 0 ∧
    Eval envExprThenFail runnerStatus2Stderr sInit "1+1\nfor \x7b" =
      { session := sAfterOnePlusOne, output := "", stderrStr := "syntax error",
        err := some (REPLError.otherErr "syntax error") } :=
  ⟨by decide, (c3_amended_classification envExprThenFail runnerStatus2Stderr sInit
    "1+1\nfor \x7b" sAfterOnePlusOne (REPLError.otherErr "syntax error")
    (by decide) rfl).1⟩


/-- C4: as stated, the claim fails on the code.  The single-line fragment
opens a block (the counter even reaches 2 because the expression branch and
the accumulation section both increment it), the loop ends with the counter
positive and a non-empty pending block, yet separateEvalStmt still hands the
block to the statement parser after the loop, and the resulting error is the
declaration fallback's goimports error, not ErrContinue. -/
theorem c4_counterexample :
    sepLoop envAllFail (goSplitLines "for \x7b") sInit [] 0 0
      = (sInit, Except.ok (["for \x7b"], 1, 2)) ∧
    separateEvalStmt envAllFail sInit "for \x7b"
      = (sInit, some (REPLError.otherErr "expected declaration, found for")) ∧
    REPLError.otherErr "expected declaration, found for" ≠ REPLError.errContinue := by
  refine ⟨rfl, rfl, ?_⟩
  decide

/-- C4 (amended): inside the line loop a step whose entry brace counter is
nonzero and whose updated counter is still nonzero performs no statement
parse at all (no session change, no error, the line is only accumulated),
but a fragment whose loop ends with a non-empty pending block is passed to
the statement parser after the loop regardless of the final counter, and
the caller receives whatever error the declaration fallback produces, which
need not be ErrContinue. -/
theorem c4_amended_brace_depth :
    (∀ (env : GoEnv) (s : Session) (line : String) (sl : List String) (ec : Nat) (bc : Int),
      bc ≠ 0 → braceUpdate bc line ≠ 0 →
      sepStep env s line sl ec bc
        = StepRes.next s (sl ++ [line]) (ec + 1) (braceUpdate bc line)) ∧
    (∀ (env : GoEnv) (s : Session) (input : String) (sFin : Session)
        (sl : List String) (ec : Nat) (bc : Int),
      sepLoop env (goSplitLines input) s [] 0 0 = (sFin, Except.ok (sl, ec, bc)) →
      sl ≠ [] →
      separateEvalStmt env s input = evalStmt env sFin (goJoinLines sl) (ec != 0)) := by
  constructor
  · intro env s line sl ec bc hbc hbc3
    unfold sepStep
    rw [if_neg (fun hc => hbc hc.1)]
    unfold sepStepRest
    dsimp only
    rw [if_neg (fun hc => hbc3 hc.1)]
  · intro env s input sFin sl ec bc hloop hsl
    unfold separateEvalStmt
    rw [hloop]
    dsimp only
    rw [if_pos (List.length_pos.mpr hsl)]

/-- C4 witness: both halves of the amended theorem at concrete inputs: a
mid-block step only accumulates, and the unbalanced fragment is still
parsed after the loop (at final depth 2). -/
theorem c4_amended_witness :
    (sepStep envAllFail sInit "x := 1" ["for \x7b"] 1 2
      = StepRes.next sInit (["for \x7b"] ++ ["x := 1"]) (1 + 1) (braceUpdate 2 "x := 1")) ∧
    separateEvalStmt envAllFail sInit "for \x7b"
      = evalStmt envAllFail sInit (goJoinLines ["for \x7b"]) (1 != 0) :=
  ⟨c4_amended_brace_depth.1 envAllFail sInit "x := 1" ["for \x7b"] 1 2
      (by decide) (by decide),
    c4_amended_brace_depth.2 envAllFail sInit "for \x7b" sInit ["for \x7b"] 1 2
      rfl (by decide)⟩

/-- C5: for every input line the expression parser accepts, evalExpr appends
exactly one new node to the body, an expression statement calling the
printer helper __gophernotes with the parsed expression as its only
argument, and returns that expression. -/
theorem c5_bare_expr_print_node (env : GoEnv) (s : Session) (input : String) (e : GoExpr)
    (h : env.parseExpr input = some e) :
    (evalExpr env s input).1.mainBodyList
      = s.mainBodyList
        ++ [GoStmt.exprStmt (GoExpr.call (GoExpr.ident printerName) [e])] ∧
    (evalExpr env s input).2 = some e := by
  unfold evalExpr
  rw [h]
  exact ⟨rfl, rfl⟩

/-- C5 witness: the theorem at the concrete expression line 1+2. -/
theorem c5_bare_expr_witness :
    envLit.parseExpr "1+2" = some (GoExpr.basicLit "1+2") ∧
    (evalExpr envLit sInit "1+2").1.mainBodyList
      = [GoStmt.exprStmt (GoExpr.call (GoExpr.ident printerName) [GoExpr.basicLit "1+2"])] :=
  ⟨rfl, (c5_bare_expr_print_node envLit sInit "1+2" (GoExpr.basicLit "1+2") rfl).1⟩

/-- C6: as stated, the claim fails on the code.  For a block whose last
statement assigns only to the blank identifier, the filtered left-hand-side
list is empty and evalStmt appends no printer node at all (one node is
appended for the block, not two), although printing was not suppressed. -/
theorem c6_counterexample :
    envAssignBlank.parseF (wrapperSrc "_ = 5")
      = ParseFResult.ok [GoStmt.assignStmt [GoExpr.ident "_"] [GoExpr.basicLit "5"]] ∧
    (evalStmt envAssignBlank sInit "_ = 5" false).1.mainBodyList
      = [GoStmt.assignStmt [GoExpr.ident "_"] [GoExpr.basicLit "5"]] ∧
    (evalStmt envAssignBlank sInit "_ = 5" false).1.mainBodyList.length = 1 :=
  ⟨rfl, rfl, rfl⟩

/-- C6 (amended): when the wrapper parse succeeds and the last statement of
the block is an assignment, evalStmt without silencing appends the block
followed by exactly one printer-call node whose arguments are the non-blank
left-hand sides, provided at least one non-blank name remains; with only
blank left-hand sides, or with silencing requested, only the block itself
is appended. -/
theorem c6_amended_assignment_echo (env : GoEnv) (s : Session) (input : String)
    (stmts : List GoStmt) (lhs rhs : List GoExpr)
    (h : env.parseF (wrapperSrc input) = ParseFResult.ok stmts)
    (hlast : stmts.getLast? = some (GoStmt.assignStmt lhs rhs)) :
    (evalStmt env s input false).1.mainBodyList
      = s.mainBodyList ++ stmts
        ++ (if 0 < (lhs.filter (fun v => !(isNamedIdent v "_"))).length then
            [GoStmt.exprStmt (GoExpr.call (GoExpr.ident printerName)
              (lhs.filter (fun v => !(isNamedIdent v "_"))))]
          else []) ∧
    (evalStmt env s input true).1.mainBodyList = s.mainBodyList ++ stmts ∧
    (evalStmt env s input false).2 = none := by
  refine ⟨?_, ?_, ?_⟩
  · unfold evalStmt
    rw [h]
    dsimp only
    unfold appendWithPrint
    rw [hlast]
    dsimp only
    split
    · show s.mainBodyList ++ (stmts ++ _) = _
      rw [List.append_assoc]
    · show s.mainBodyList ++ stmts = s.mainBodyList ++ stmts ++ []
      rw [List.append_nil]
  · unfold evalStmt
    rw [h]
    dsimp only
    unfold appendWithPrint
    rw [hlast]
    rfl
  · unfold evalStmt
    rw [h]

/-- C6 witness: the amended theorem at the concrete assignment x := 5, whose
echo node carries the single non-blank name x. -/
theorem c6_amended_witness :
    envAssignX.parseF (wrapperSrc "x := 5")
      = ParseFResult.ok [GoStmt.assignStmt [GoExpr.ident "x"] [GoExpr.basicLit "5"]] ∧
    (evalStmt envAssignX sInit "x := 5" false).1.mainBodyList
      = [] ++ [GoStmt.assignStmt [GoExpr.ident "x"] [GoExpr.basicLit "5"]]
        ++ (if 0 < ([GoExpr.ident "x"].filter (fun v => !(isNamedIdent v "_"))).length then
            [GoStmt.exprStmt (GoExpr.call (GoExpr.ident printerName)
              ([GoExpr.ident "x"].filter (fun v => !(isNamedIdent v "_"))))]
          else []) :=
  ⟨rfl, (c6_amended_assignment_echo envAssignX sInit "x := 5"
    [GoStmt.assignStmt [GoExpr.ident "x"] [GoExpr.basicLit "5"]]
    [GoExpr.ident "x"] [GoExpr.basicLit "5"] rfl rfl).1⟩

/-- C7: as stated, the claim fails on the code.  Run appends the session
file path after the auxiliary unit paths, so the subprocess argument list
is run, auxiliary files, session file: the session file comes last, not
first. -/
theorem c7_counterexample :
    runCommandArgs sWithAux = ["run", "gore_extarnal_0.go", "gophernotes_session.go"] ∧
    runCommandArgs sWithAux ≠ ["run", "gophernotes_session.go", "gore_extarnal_0.go"] := by
  refine ⟨rfl, ?_⟩
  decide

/-- C7 (amended): for every session the external tool is invoked with the
argument list run followed by every auxiliary unit path in order and then
the session file path last. -/
theorem c7_amended_run_args (s : Session) :
    runCommandArgs s = "run" :: (s.extraFilePaths ++ [s.filePath]) ∧
    (runCommandArgs s).getLast? = some s.filePath := by
  refine ⟨rfl, ?_⟩
  show (("run" :: s.extraFilePaths) ++ [s.filePath]).getLast? = some s.filePath
  exact List.getLast?_concat ..

/-- C8: as stated, the claim fails on the code.  The guard uses
strings.HasSuffix, not equality with the literal two-character line, so a
longer line that merely ends with the empty-block suffix is NOT decremented,
although its trailing character is a closing brace and it is not literally
the two-character string. -/
theorem c8_counterexample :
    closesBlock "a\x7b\x7d" = false ∧
    ("a\x7b\x7d" : String) ≠ "\x7b\x7d" ∧
    "a\x7b\x7d".data.getLast? = some '\x7d' := by
  refine ⟨rfl, ?_, rfl⟩
  decide

/-- C8 (amended): the brace counter's decrement condition holds exactly when
the line's last character is a closing brace or the line is empty (the
LastIndex comparison also succeeds on the empty line, where both sides are
-1), and the line does not end with the two-character empty-block suffix. -/
theorem c8_amended_decrement_condition (line : String) :
    closesBlock line = true ↔
      ((line.data.getLast? = some '\x7d' ∨ line.data = []) ∧
        goHasSuffix line "\x7b\x7d" = false) := by
  unfold closesBlock
  rw [Bool.and_eq_true, Bool.not_eq_true']
  rw [goLastIndexAtEnd_iff]


/-- C9: rendering a committed program, reparsing the text to normalize node
position metadata, and rendering again yields text identical to the first
rendering.  The renderer and reparser are modelled from the spec (section
4.1): go/printer, go/parser and normalizeNodePos are not under src/.  The
well-formedness hypothesis says every committed statement has non-empty
source text. -/
theorem c9_render_roundtrip (body : List MStmt) (hwf : ∀ st ∈ body, st.text ≠ "") :
    ∃ body2, reparseNormalize (render body) = some body2 ∧ render body2 = render body := by
  have htake : (render body).take headerLines.length = headerLines := by
    show (headerLines ++ (renderBody body ++ [footerLine])).take headerLines.length
      = headerLines
    exact List.take_left ..
  have hlast : (render body).getLast? = some footerLine := by
    show (headerLines ++ renderBody body ++ [footerLine]).getLast? = some footerLine
    exact List.getLast?_concat ..
  have hmid : ((render body).drop headerLines.length).dropLast = renderBody body := by
    show ((headerLines ++ (renderBody body ++ [footerLine])).drop headerLines.length).dropLast
      = renderBody body
    rw [List.drop_left]
    exact List.dropLast_concat ..
  refine ⟨parseBodyAux 0 (renderBody body), ?_, ?_⟩
  · unfold reparseNormalize
    rw [if_pos ⟨htake, hlast⟩, hmid]
  · show headerLines ++ renderBody (parseBodyAux 0 (renderBody body)) ++ [footerLine]
      = headerLines ++ renderBody body ++ [footerLine]
    rw [renderBody_parse (renderBody body) 0 (fun _ => rfl)
      (getLast_renderBody_ne body hwf)]
    rfl

/-- C9 witness: the round trip at a concrete two-statement committed body. -/
theorem c9_roundtrip_witness :
    (∀ st ∈ bodyC9, st.text ≠ "") ∧
    ∃ body2, reparseNormalize (render bodyC9) = some body2 ∧ render body2 = render bodyC9 :=
  ⟨by decide, c9_render_roundtrip bodyC9 (by decide)⟩

/-- C10: for every call to Eval, on every outcome path (commit, recoverable
rollback, fatal run error, classification error, cleanup error, empty
input), the body present at the checkpoint is preserved unchanged and in
order as a prefix of the final body: every mutation appends after it or
truncates back to it, never inside it. -/
theorem c10_body_checkpoint_preserved (env : GoEnv)
    (runner : List GoStmt → List String → RunResult) (s : Session) (input : String) :
    s.mainBodyList <+: (Eval env runner s input).session.mainBodyList := by
  simp only [Eval]
  by_cases h0 : (evalInput input).length = 0
  · rw [if_pos h0]
    exact ⟨[], List.append_nil _⟩
  · rw [if_neg h0]
    rcases hsep : separateEvalStmt env (storeMainBody s) (evalInput input) with ⟨s1, oe⟩
    have hpre1 : s.mainBodyList <+: s1.mainBodyList := by
      have h1 := bodyPre_separate env (storeMainBody s) (evalInput input)
      rw [hsep] at h1
      exact h1
    have hstored : s1.storedBodyLength = s.mainBodyList.length := by
      have h1 := stored_separate env (storeMainBody s) (evalInput input)
      rw [hsep] at h1
      exact h1
    cases oe with
    | some e => exact hpre1
    | none =>
      dsimp only
      have hbody3 : (truncateTo
          (interpretRunOutcome s1 (runner s1.mainBodyList s1.extraFilePaths)).1
          ((storeMainBody s).mainBodyList.length)).mainBodyList = s.mainBodyList := by
        rcases interpretRunOutcome_fst s1 (runner s1.mainBodyList s1.extraFilePaths)
          with h2 | h2 <;> rw [h2]
        · exact takeOfPre hpre1
        · show (s1.mainBodyList.take s1.storedBodyLength).take s.mainBodyList.length
            = s.mainBodyList
          rw [hstored, takeOfPre hpre1, List.take_length]
      rcases hcl : cleanEvalStmt env (truncateTo
          (interpretRunOutcome s1 (runner s1.mainBodyList s1.extraFilePaths)).1
          ((storeMainBody s).mainBodyList.length)) (evalInput input) with ⟨s4, o⟩
      have hpre4 : s.mainBodyList <+: s4.mainBodyList := by
        have h1 := bodyPre_clean env (truncateTo
          (interpretRunOutcome s1 (runner s1.mainBodyList s1.extraFilePaths)).1
          ((storeMainBody s).mainBodyList.length)) (evalInput input)
        rw [hcl, hbody3] at h1
        exact h1
      cases o with
      | some e => exact hpre4
      | none => exact hpre4

end Gophernotes
